import Mathlib

/-!
Shallow embedding of the decode/execute core of the `gb-color` Game Boy CPU
interpreter (`src/cpu/registers.rs`, `src/cpu/instructions/{mod,operands,
instructions_fn,execute,parsers}.rs`).

Machine integers are modelled as `Nat`; every truncating cast or wrapping
operation of the source is rendered as an explicit `% 2^w` or bit mask.
Rust `todo!()` / `unreachable!()` panics inside decoders are modelled by the
`DecodeOutcome.abort` outcome; the panicking indirect-operand read of
`Operand::get_value` is modelled by `Option`.
-/

namespace GB

/-! ### Register file (`src/cpu/registers.rs`) -/

/-- The named 8-bit CPU registers (`Register8` / `Reg8` in the sources; the
two snapshots declare the same enum under the two names). -/
inductive Register8
  | Acc | B | C | D | E | H | L
deriving DecidableEq

/-- The backing storage generated by `make_registers_struct!(b c, d e, h l)`:
a 16-bit stack pointer, the accumulator, and the six pairable 8-bit
registers. -/
structure RawRegisters where
  sp : Nat
  acc : Nat
  b : Nat
  c : Nat
  d : Nat
  e : Nat
  h : Nat
  l : Nat
deriving DecidableEq

/-- `RawRegisters::new` (all fields defaulted to zero). -/
def RawRegisters.new : RawRegisters := ⟨0, 0, 0, 0, 0, 0, 0, 0⟩

def RawRegisters.set_acc (r : RawRegisters) (val : Nat) : RawRegisters :=
  { r with acc := val }

def RawRegisters.set_b (r : RawRegisters) (val : Nat) : RawRegisters :=
  { r with b := val }

def RawRegisters.set_c (r : RawRegisters) (val : Nat) : RawRegisters :=
  { r with c := val }

def RawRegisters.set_d (r : RawRegisters) (val : Nat) : RawRegisters :=
  { r with d := val }

def RawRegisters.set_e (r : RawRegisters) (val : Nat) : RawRegisters :=
  { r with e := val }

def RawRegisters.set_h (r : RawRegisters) (val : Nat) : RawRegisters :=
  { r with h := val }

def RawRegisters.set_l (r : RawRegisters) (val : Nat) : RawRegisters :=
  { r with l := val }

/-- 16-bit pair read `bc()`: `((self.b as u16) << 8) | self.c as u16`. -/
def RawRegisters.bc (r : RawRegisters) : Nat := (r.b <<< 8) ||| r.c

def RawRegisters.de (r : RawRegisters) : Nat := (r.d <<< 8) ||| r.e

def RawRegisters.hl (r : RawRegisters) : Nat := (r.h <<< 8) ||| r.l

/-- 16-bit pair write `set_bc(val)`: low byte `val & 0xFF`, high byte the
`u8` cast of `val >> 8` (a truncation, hence the `% 256`). -/
def RawRegisters.set_bc (r : RawRegisters) (val : Nat) : RawRegisters :=
  { r with c := val &&& 0xFF, b := (val >>> 8) % 256 }

def RawRegisters.set_de (r : RawRegisters) (val : Nat) : RawRegisters :=
  { r with e := val &&& 0xFF, d := (val >>> 8) % 256 }

def RawRegisters.set_hl (r : RawRegisters) (val : Nat) : RawRegisters :=
  { r with l := val &&& 0xFF, h := (val >>> 8) % 256 }

/-- `RwRegister<u8>::read` for `Reg8`/`Register8`. -/
def Register8.read (reg : Register8) (regs : RawRegisters) : Nat :=
  match reg with
  | .Acc => regs.acc
  | .B => regs.b
  | .C => regs.c
  | .D => regs.d
  | .E => regs.e
  | .H => regs.h
  | .L => regs.l

/-- `RwRegister<u8>::write` for `Reg8`/`Register8`. -/
def Register8.write (reg : Register8) (regs : RawRegisters) (val : Nat) :
    RawRegisters :=
  match reg with
  | .Acc => regs.set_acc val
  | .B => regs.set_b val
  | .C => regs.set_c val
  | .D => regs.set_d val
  | .E => regs.set_e val
  | .H => regs.set_h val
  | .L => regs.set_l val

/-! ### Flags register (`src/cpu/registers.rs`, `impl_flags_struct!`) -/

/-- The one-byte flags register `Flags(u8)`. -/
structure Flags where
  val : Nat
deriving DecidableEq

/-- `Flags::new` (defaulted to zero). -/
def Flags.new : Flags := ⟨0⟩

/-- `Flags::set`: `self.0 = val & 0xF0` — the low nibble is always masked
away. -/
def Flags.set (_f : Flags) (val : Nat) : Flags := ⟨val &&& 0xF0⟩

/-- `Flags::clear`: `self.0 = 0x00`. -/
def Flags.clear (_f : Flags) : Flags := ⟨0⟩

/-- The per-flag getter generated by `impl_flags_struct!`:
`(self.0 >> pos) & 0b1 == 0b1`. -/
def Flags.flag_get (f : Flags) (pos : Nat) : Bool :=
  (f.val >>> pos) &&& 1 == 1

/-- The per-flag setter generated by `impl_flags_struct!`:
`self.0 = self.0 & !(1 << pos) | ((val as u8) << pos)`; the `u8` complement
`!(1 << pos)` is `0xFF ^ (1 << pos)`. -/
def Flags.flag_write (f : Flags) (pos : Nat) (val : Bool) : Flags :=
  ⟨f.val &&& (0xFF ^^^ (1 <<< pos)) ||| (val.toNat <<< pos)⟩

/-- The per-flag clear generated by `impl_flags_struct!`:
`self.0 = self.0 & !(1 << pos)`. -/
def Flags.flag_clear (f : Flags) (pos : Nat) : Flags :=
  ⟨f.val &&& (0xFF ^^^ (1 <<< pos))⟩

-- Instantiations `impl_flags_struct!(zero: 7, subtract: 6, half_carry: 5,
-- carry: 4)`.
def Flags.zero (f : Flags) : Bool := f.flag_get 7

def Flags.set_zero (f : Flags) (val : Bool) : Flags := f.flag_write 7 val

def Flags.clear_zero (f : Flags) : Flags := f.flag_clear 7

def Flags.subtract (f : Flags) : Bool := f.flag_get 6

def Flags.set_subtract (f : Flags) (val : Bool) : Flags := f.flag_write 6 val

def Flags.clear_subtract (f : Flags) : Flags := f.flag_clear 6

def Flags.half_carry (f : Flags) : Bool := f.flag_get 5

def Flags.set_half_carry (f : Flags) (val : Bool) : Flags := f.flag_write 5 val

def Flags.clear_half_carry (f : Flags) : Flags := f.flag_clear 5

def Flags.carry (f : Flags) : Bool := f.flag_get 4

def Flags.set_carry (f : Flags) (val : Bool) : Flags := f.flag_write 4 val

def Flags.clear_carry (f : Flags) : Flags := f.flag_clear 4

/-! ### CPU state (`src/cpu/mod.rs`) -/

/-- `CpuState { pc: usize, sp: usize, flags, regs }`. -/
structure CpuState where
  pc : Nat
  sp : Nat
  flags : Flags
  regs : RawRegisters
deriving DecidableEq

/-- `CpuState::new`: zeroed counters, defaulted flags and registers. -/
def CpuState.new : CpuState := ⟨0, 0, Flags.new, RawRegisters.new⟩

/-! ### Operand sources (`src/cpu/instructions/operands.rs`) -/

/-- `ArithSource`: an 8-bit register, the memory cell addressed by `HL`, or
an immediate literal byte. -/
inductive ArithSource
  | Reg (r : Register8)
  | Addr
  | Immediate (v : Nat)
deriving DecidableEq

/-- `ArithSource::from_opcode`: maps the low 3 bits of an opcode to an
operand source.  The source's `_ => unreachable!()` arm is modelled by
`none`; `reg_idx = opcode & 0b111` makes it genuinely unreachable. -/
def ArithSource.from_opcode (opcode : Nat) : Option ArithSource :=
  let reg_idx := opcode &&& 0b00000111
  match reg_idx with
  | 0 => some (.Reg .B)
  | 1 => some (.Reg .C)
  | 2 => some (.Reg .D)
  | 3 => some (.Reg .E)
  | 4 => some (.Reg .H)
  | 5 => some (.Reg .L)
  | 6 => some .Addr
  | 7 => some (.Reg .Acc)
  | _ => none

/-- `ArithSource::from_literal`. -/
def ArithSource.from_literal (val : Nat) : ArithSource := .Immediate val

/-- `Operand<u8>::get_value` from `operands.rs`: the `Addr` arm is
`todo!()` (a panic), modelled by `none`. -/
def ArithSource.get_value (src : ArithSource) (state : CpuState) :
    Option Nat :=
  match src with
  | .Immediate imm => some imm
  | .Reg reg => some (reg.read state.regs)
  | .Addr => none

/-- Modelled from the spec: `execute.rs` resolves its operand through a
`Source` trait (`self.0.value(state)`) whose implementation is absent from
the sources.  Per spec §4.3, a register source reads the named register, an
immediate source is the literal carried by the instruction, and an indirect
source reads the byte at the address held in `HL` from the injected memory
collaborator `mem`.  On the register and immediate cases this agrees with
the `Operand::get_value` implementation present in `operands.rs`. -/
def ArithSource.value (src : ArithSource) (mem : Nat → Nat)
    (state : CpuState) : Nat :=
  match src with
  | .Immediate imm => imm
  | .Reg reg => reg.read state.regs
  | .Addr => mem state.regs.hl % 256

/-! ### The Add instruction (`src/cpu/instructions/execute.rs`) -/

/-- `struct Add(pub ArithSource)`. -/
structure Add where
  source : ArithSource
deriving DecidableEq

/-- `Add::with_source`. -/
def Add.with_source (src : ArithSource) : Add := ⟨src⟩

/-- The half-carry expression of `execute.rs` line 28 (and
`instructions_fn.rs` line 28): `result & 0x0F < operand & 0x0F`. -/
def half_carry_check (result operand : Nat) : Bool :=
  decide (result &&& 0x0F < operand &&& 0x0F)

/-- `Executable::execute` for `Add` (`execute.rs`): wrapping 8-bit addition
of the resolved operand into the accumulator, flag recomputation, and
program-counter advancement by the instruction's byte width.
`overflowing_add` on `u8` yields `(acc + operand) % 256` with overflow
exactly when `acc + operand > 255`. -/
def Add.execute (i : Add) (mem : Nat → Nat) (state : CpuState) : CpuState :=
  let operand := i.source.value mem state
  let acc := state.regs.acc
  let result := (acc + operand) % 256
  let did_overflow := decide (255 < acc + operand)
  let flags := state.flags.set_zero (result == 0)
  let flags := flags.set_carry did_overflow
  let flags := flags.clear_subtract
  let flags := flags.set_half_carry (half_carry_check result operand)
  let pc := state.pc +
    (match i.source with
     | .Reg _ => 1
     | .Addr => 1
     | .Immediate _ => 2)
  { state with flags := flags, pc := pc, regs := state.regs.set_acc result }

/-! ### Instructions and decoding (`src/cpu/instructions/mod.rs`) -/

/-- `enum Instruction { AddInstr(Add) }`. -/
inductive Instruction
  | AddInstr (a : Add)
deriving DecidableEq

/-- `enum ParseError { Invalid }` (`DecodeError` in `parsers.rs` is the
same single-variant enum). -/
inductive ParseError
  | Invalid
deriving DecidableEq

/-- Outcome of running a decoder: a constructed instruction, a reported
decode error, or a panic (`todo!()` / `unreachable!()`). -/
inductive DecodeOutcome
  | ok (i : Instruction)
  | err (e : ParseError)
  | abort
deriving DecidableEq

/-- `parse_block_2_instr` (`mod.rs`): bits 5–3 select the operation
(only 0 = Add is implemented; the other arms are `todo!()` or
`unreachable!()`, both panics). -/
def parse_block_2_instr (opcode : Nat) : DecodeOutcome :=
  let instr := (opcode &&& 0b00111000) >>> 3
  match instr with
  | 0 =>
    match ArithSource.from_opcode opcode with
    | some src => .ok (.AddInstr (Add.with_source src))
    | none => .abort
  | _ => .abort

/-- `parse_block_3_instr` (`mod.rs`): arithmetic-immediate when the low
3 bits are `0b110`; the missing immediate byte is reported as
`Err(Invalid)`; non-arithmetic opcodes and other operations are
`todo!()`. -/
def parse_block_3_instr (opcode : Nat) (next : Option Nat) : DecodeOutcome :=
  let is_arithmetic := opcode &&& 0b00000111 == 0b110
  if is_arithmetic then
    match next with
    | none => .err .Invalid
    | some immediate =>
      let instr := (opcode &&& 0b00111000) >>> 3
      match instr with
      | 0 => .ok (.AddInstr (Add.with_source (ArithSource.from_literal immediate)))
      | _ => .abort
  else
    .abort

/-- `Instruction::from_bytes` (`mod.rs`): an empty slice is
`Err(ParseError::Invalid)`; the prefix-escape byte `0xCB` and blocks 0, 1
are `todo!()`; blocks 2 and 3 are delegated; the final `_` arm is
`unreachable!()` because `(first & 0xC0) >> 6 < 4`. -/
def Instruction.from_bytes (rom_slice : List Nat) : DecodeOutcome :=
  match rom_slice with
  | [] => .err .Invalid
  | first :: rest =>
    let block := (first &&& 0xC0) >>> 6
    let is_prefixed := first == 0xCB
    if is_prefixed then
      .abort
    else
      match block with
      | 0 => .abort
      | 1 => .abort
      | 2 => parse_block_2_instr first
      | 3 => parse_block_3_instr first rest.head?
      | _ => .abort

/-! ### Block decoders (`src/cpu/instructions/parsers.rs`) -/

def ARITH_INSTR_MASK : Nat := 0b00111000

def ARITH_INSTR_POS : Nat := 3

def BLOCK_3_INSTR_MASK : Nat := 0b00000111

def BLOCK_3_INSTR_POS : Nat := 0

/-- `Block2::decode`: pattern `[opcode, ..]`, so the empty slice is
`Err(DecodeError::Invalid)`; consumes exactly the opcode byte. -/
def Block2.decode (bytes : List Nat) : DecodeOutcome :=
  match bytes with
  | [] => .err .Invalid
  | opcode :: _ =>
    let instr := (opcode &&& ARITH_INSTR_MASK) >>> ARITH_INSTR_POS
    match instr with
    | 0 =>
      match ArithSource.from_opcode opcode with
      | some src => .ok (.AddInstr (Add.with_source src))
      | none => .abort
    | _ => .abort

/-- `Block3::decode`: pattern `[opcode, immediate, ..]`, so any slice
shorter than two bytes is `Err(DecodeError::Invalid)`. -/
def Block3.decode (bytes : List Nat) : DecodeOutcome :=
  match bytes with
  | opcode :: immediate :: _ =>
    let is_arithmetic :=
      (opcode &&& BLOCK_3_INSTR_MASK) >>> BLOCK_3_INSTR_POS == 0b110
    if is_arithmetic then
      let instr := (opcode &&& ARITH_INSTR_MASK) >>> ARITH_INSTR_POS
      match instr with
      | 0 => .ok (.AddInstr (Add.with_source (ArithSource.from_literal immediate)))
      | _ => .abort
    else
      .abort
  | _ => .err .Invalid

/-- The five decode paths of `InstructionDecoder`. -/
inductive InstructionDecoder
  | Block0Decoder
  | Block1Decoder
  | Block2Decoder
  | Block3Decoder
  | PrefixedDecoder
deriving DecidableEq

/-- `From<Opcode> for InstructionDecoder` (`parsers.rs`): the prefix escape
`0xCB` routes to the prefixed table before the block dispatch; otherwise
the top two bits select the block.  The `_ => unreachable!()` arm is
modelled by `none`. -/
def InstructionDecoder.from_opcode (opcode : Nat) : Option InstructionDecoder :=
  let block := (opcode &&& 0xC0) >>> 6
  let is_prefixed := opcode == 0xCB
  if is_prefixed then
    some .PrefixedDecoder
  else
    match block with
    | 0 => some .Block0Decoder
    | 1 => some .Block1Decoder
    | 2 => some .Block2Decoder
    | 3 => some .Block3Decoder
    | _ => none

/-! ### Flag-operation sequences (for the low-nibble invariant) -/

/-- One call to the public mutating interface of `Flags`: the byte-level
setter, the global clear, or a per-flag setter/clear at the four
instantiated positions. -/
inductive FlagsOp
  | setByte (v : Nat)
  | clearAll
  | writeZero (b : Bool)
  | writeSubtract (b : Bool)
  | writeHalfCarry (b : Bool)
  | writeCarry (b : Bool)
  | clrZero
  | clrSubtract
  | clrHalfCarry
  | clrCarry

/-- Apply one flag operation. -/
def FlagsOp.apply (op : FlagsOp) (f : Flags) : Flags :=
  match op with
  | .setByte v => f.set v
  | .clearAll => f.clear
  | .writeZero b => f.set_zero b
  | .writeSubtract b => f.set_subtract b
  | .writeHalfCarry b => f.set_half_carry b
  | .writeCarry b => f.set_carry b
  | .clrZero => f.clear_zero
  | .clrSubtract => f.clear_subtract
  | .clrHalfCarry => f.clear_half_carry
  | .clrCarry => f.clear_carry

/-- Apply a sequence of flag operations, oldest first. -/
def applyFlagsOps (ops : List FlagsOp) (f : Flags) : Flags :=
  ops.foldl (fun g op => op.apply g) f

/-! ### Test fixtures -/

/-- A trivial memory collaborator: every address reads as zero. -/
def mem0 : Nat → Nat := fun _ => 0

/-- A CPU state with the accumulator and the B register both holding
`0xE1` (the concrete Add scenario of spec §8). -/
def stateE1 : CpuState :=
  { CpuState.new with regs := (RawRegisters.new.set_acc 0xE1).set_b 0xE1 }

/-! ### Bit-level helper lemmas for the flags register -/

lemma flag_get_eq_testBit (f : Flags) (pos : Nat) :
    f.flag_get pos = f.val.testBit pos := by
  simp only [Flags.flag_get, Nat.testBit_to_div_mod,
    Nat.shiftRight_eq_div_pow, Nat.and_one_is_mod]
  exact Bool.beq_eq_decide_eq _ _

lemma testBit_flag_mask {p q : Nat} (hp : p < 8) (hq : q < 8) :
    (0xFF ^^^ (1 <<< p)).testBit q = !(decide (q = p)) := by
  have h255 : (0xFF : Nat) = 2 ^ 8 - 1 := by norm_num
  have h1p : (1 : Nat) <<< p = 2 ^ p := by
    rw [Nat.shiftLeft_eq, one_mul]
  rw [h255, h1p, Nat.testBit_xor, Nat.testBit_two_pow_sub_one,
    Nat.testBit_two_pow]
  by_cases h : q = p
  · simp [h, hp]
  · have h' : ¬p = q := fun hh => h hh.symm
    simp [h, h', hq]

lemma flag_get_flag_write (f : Flags) {p q : Nat} (b : Bool)
    (hp : p < 8) (hq : q < 8) :
    (f.flag_write p b).flag_get q = if q = p then b else f.flag_get q := by
  rw [flag_get_eq_testBit, flag_get_eq_testBit]
  show ((f.val &&& (0xFF ^^^ (1 <<< p))) ||| (b.toNat <<< p)).testBit q = _
  rw [Nat.testBit_or, Nat.testBit_and, testBit_flag_mask hp hq,
    Nat.testBit_shiftLeft, Nat.testBit_bool_to_nat]
  by_cases h : q = p
  · simp [h]
  · by_cases hle : p ≤ q
    · have hsub : ¬(q - p = 0) := by omega
      simp [h, hle, hsub]
    · simp [h, hle]

lemma flag_get_flag_clear (f : Flags) {p q : Nat}
    (hp : p < 8) (hq : q < 8) :
    (f.flag_clear p).flag_get q = if q = p then false else f.flag_get q := by
  rw [flag_get_eq_testBit, flag_get_eq_testBit]
  show (f.val &&& (0xFF ^^^ (1 <<< p))).testBit q = _
  rw [Nat.testBit_and, testBit_flag_mask hp hq]
  by_cases h : q = p <;> simp [h]

lemma zero_set_carry (f : Flags) (b : Bool) :
    (f.set_carry b).zero = f.zero := by
  rw [Flags.set_carry, Flags.zero,
    flag_get_flag_write f b (by omega) (by omega)]
  simp [Flags.zero]

lemma zero_clear_subtract (f : Flags) : f.clear_subtract.zero = f.zero := by
  rw [Flags.clear_subtract, Flags.zero,
    flag_get_flag_clear f (by omega) (by omega)]
  simp [Flags.zero]

lemma zero_set_half_carry (f : Flags) (b : Bool) :
    (f.set_half_carry b).zero = f.zero := by
  rw [Flags.set_half_carry, Flags.zero,
    flag_get_flag_write f b (by omega) (by omega)]
  simp [Flags.zero]

lemma zero_set_zero (f : Flags) (b : Bool) : (f.set_zero b).zero = b := by
  rw [Flags.set_zero, Flags.zero,
    flag_get_flag_write f b (by omega) (by omega)]
  simp

lemma carry_set_half_carry (f : Flags) (b : Bool) :
    (f.set_half_carry b).carry = f.carry := by
  rw [Flags.set_half_carry, Flags.carry,
    flag_get_flag_write f b (by omega) (by omega)]
  simp [Flags.carry]

lemma carry_clear_subtract (f : Flags) : f.clear_subtract.carry = f.carry := by
  rw [Flags.clear_subtract, Flags.carry,
    flag_get_flag_clear f (by omega) (by omega)]
  simp [Flags.carry]

lemma carry_set_carry (f : Flags) (b : Bool) : (f.set_carry b).carry = b := by
  rw [Flags.set_carry, Flags.carry,
    flag_get_flag_write f b (by omega) (by omega)]
  simp

lemma subtract_set_half_carry (f : Flags) (b : Bool) :
    (f.set_half_carry b).subtract = f.subtract := by
  rw [Flags.set_half_carry, Flags.subtract,
    flag_get_flag_write f b (by omega) (by omega)]
  simp [Flags.subtract]

lemma subtract_clear_subtract (f : Flags) :
    f.clear_subtract.subtract = false := by
  rw [Flags.clear_subtract, Flags.subtract,
    flag_get_flag_clear f (by omega) (by omega)]
  simp

lemma half_carry_set_half_carry (f : Flags) (b : Bool) :
    (f.set_half_carry b).half_carry = b := by
  rw [Flags.set_half_carry, Flags.half_carry,
    flag_get_flag_write f b (by omega) (by omega)]
  simp

/-! ### Arithmetic helper lemmas -/

lemma and_fifteen (x : Nat) : x &&& 15 = x % 16 := by
  have h := Nat.and_pow_two_sub_one_eq_mod x 4
  norm_num at h
  exact h

lemma and_ff (x : Nat) : x &&& 0xFF = x % 256 := by
  have h := Nat.and_pow_two_sub_one_eq_mod x 8
  norm_num at h
  exact h

lemma lowNibble_or {x y : Nat} (hx : x % 16 = 0) (hy : y % 16 = 0) :
    (x ||| y) % 16 = 0 := by
  rw [← and_fifteen] at hx hy ⊢
  rw [Nat.and_distrib_right, hx, hy]
  simp

lemma lowNibble_and {x : Nat} (m : Nat) (hx : x % 16 = 0) :
    (x &&& m) % 16 = 0 := by
  rw [← and_fifteen] at hx ⊢
  rw [Nat.and_assoc, Nat.and_comm m 15, ← Nat.and_assoc, hx, Nat.zero_and]

lemma lowNibble_shift {b : Bool} {p : Nat} (hp : 4 ≤ p) :
    (b.toNat <<< p) % 16 = 0 := by
  rw [Nat.shiftLeft_eq]
  have hdvd : (16 : Nat) ∣ b.toNat * 2 ^ p := by
    have h2 : (2 : Nat) ^ 4 ∣ 2 ^ p := pow_dvd_pow 2 hp
    exact Dvd.dvd.mul_left (by simpa using h2) _
  omega

lemma apply_preserves_lowNibble (op : FlagsOp) (f : Flags)
    (h : f.val % 16 = 0) : (op.apply f).val % 16 = 0 := by
  cases op with
  | setByte v =>
    show (v &&& 0xF0) % 16 = 0
    have h240 : (0xF0 : Nat) &&& 15 = 0 := by decide
    rw [← and_fifteen, Nat.and_assoc, h240, Nat.and_zero]
  | clearAll =>
    show (0 : Nat) % 16 = 0
    decide
  | writeZero b =>
    exact lowNibble_or (lowNibble_and _ h) (lowNibble_shift (by omega))
  | writeSubtract b =>
    exact lowNibble_or (lowNibble_and _ h) (lowNibble_shift (by omega))
  | writeHalfCarry b =>
    exact lowNibble_or (lowNibble_and _ h) (lowNibble_shift (by omega))
  | writeCarry b =>
    exact lowNibble_or (lowNibble_and _ h) (lowNibble_shift (by omega))
  | clrZero => exact lowNibble_and _ h
  | clrSubtract => exact lowNibble_and _ h
  | clrHalfCarry => exact lowNibble_and _ h
  | clrCarry => exact lowNibble_and _ h

lemma applyFlagsOps_lowNibble (ops : List FlagsOp) :
    ∀ f : Flags, f.val % 16 = 0 → (applyFlagsOps ops f).val % 16 = 0 := by
  induction ops with
  | nil => intro f h; exact h
  | cons op rest ih =>
    intro f h
    exact ih _ (apply_preserves_lowNibble op f h)

lemma high_low_or (v : Nat) :
    ((v >>> 8) <<< 8) ||| (v &&& 0xFF) = v := by
  have h8 : v >>> 8 = v / 256 := by
    rw [Nat.shiftRight_eq_div_pow]
  have hlt : v % 256 < 2 ^ 8 := Nat.mod_lt v (by norm_num)
  have hor := Nat.mul_add_lt_is_or hlt (v / 256)
  rw [h8, and_ff, Nat.shiftLeft_eq, Nat.mul_comm, ← hor]
  omega

lemma shiftRight_byte_lt {v : Nat} (hv : v < 65536) : v >>> 8 < 256 := by
  rw [Nat.shiftRight_eq_div_pow]
  norm_num
  omega

/-! ### Claim theorems -/

/-- The postcondition of executing `Add` on a state whose accumulator holds
`a` when the operand resolves to `b`: accumulator `(a+b) mod 256`, Zero set
iff the result is 0, Carry set iff `a+b > 255`, Half-Carry set iff
`(result & 0xF) < (b & 0xF)`, Subtract cleared. -/
def AddSpecHolds (mem : Nat → Nat) (state : CpuState) (src : ArithSource)
    (a b : Nat) : Prop :=
  ((Add.with_source src).execute mem state).regs.acc = (a + b) % 256 ∧
  ((Add.with_source src).execute mem state).flags.zero
      = decide ((a + b) % 256 = 0) ∧
  ((Add.with_source src).execute mem state).flags.carry
      = decide (255 < a + b) ∧
  ((Add.with_source src).execute mem state).flags.half_carry
      = decide ((a + b) % 256 &&& 0xF < b &&& 0xF) ∧
  ((Add.with_source src).execute mem state).flags.subtract = false

/-- C1: for all 8-bit values `a` (accumulator) and `b` (resolved operand),
executing the Add instruction with a register or immediate operand yields
Accumulator `(a+b) mod 256`, Zero flag set iff the result is 0, Carry flag
set iff `a+b > 255`, Half-Carry flag set iff
`(result & 0xF) < (b & 0xF)`, and Subtract flag cleared. -/
theorem add_execute_spec (mem : Nat → Nat) (state : CpuState)
    (src : ArithSource) (a b : Nat)
    (_hsrc : (∃ r, src = ArithSource.Reg r) ∨
      ∃ v, src = ArithSource.Immediate v)
    (ha : state.regs.acc = a) (hb : src.value mem state = b)
    (_ha8 : a < 256) (_hb8 : b < 256) :
    AddSpecHolds mem state src a b := by
  unfold AddSpecHolds Add.execute
  simp only [Add.with_source, ha, hb, zero_set_half_carry,
    zero_clear_subtract, zero_set_carry, zero_set_zero, carry_set_half_carry,
    carry_clear_subtract, carry_set_carry, subtract_set_half_carry,
    subtract_clear_subtract, half_carry_set_half_carry, half_carry_check,
    RawRegisters.set_acc, Bool.beq_eq_decide_eq]
  exact ⟨trivial, trivial, trivial, trivial, trivial⟩

/-- Witness for C1: the spec §8 scenario `Add(Reg(B))` with `Acc = B = 0xE1`
(yielding `Acc = 0xC2`, Carry set, Half-Carry clear, Zero clear). -/
theorem add_execute_spec_witness :
    ((∃ r, ArithSource.Reg Register8.B = ArithSource.Reg r) ∨
      ∃ v, ArithSource.Reg Register8.B = ArithSource.Immediate v) ∧
    stateE1.regs.acc = 0xE1 ∧
    (ArithSource.Reg Register8.B).value mem0 stateE1 = 0xE1 ∧
    0xE1 < 256 ∧
    AddSpecHolds mem0 stateE1 (ArithSource.Reg Register8.B) 0xE1 0xE1 :=
  ⟨Or.inl ⟨Register8.B, rfl⟩, rfl, rfl, by decide,
    add_execute_spec mem0 stateE1 (ArithSource.Reg Register8.B) 0xE1 0xE1
      (Or.inl ⟨Register8.B, rfl⟩) rfl rfl (by decide) (by decide)⟩

/-- C2: executing `Add` advances the program counter from its prior value
by exactly 1 for a register or HL-indirect operand source and by exactly 2
for an immediate operand source. -/
theorem add_pc_advance (mem : Nat → Nat) (state : CpuState)
    (src : ArithSource) :
    ((Add.with_source src).execute mem state).pc =
      state.pc + (match src with
        | .Reg _ => 1
        | .Addr => 1
        | .Immediate _ => 2) := by
  cases src <;> rfl

/-- C3: the implemented half-carry formula
`(result & 0xF) < (operand & 0xF)` on `result = (a+b) mod 256` agrees with
the hardware half-carry condition `(a & 0xF) + (b & 0xF) > 0xF` for all
8-bit `a`, `b`. -/
theorem half_carry_formula_equiv :
    ∀ a < 256, ∀ b < 256,
      half_carry_check ((a + b) % 256) b
        = decide (0xF < (a &&& 0xF) + (b &&& 0xF)) := by
  intro a _ b _
  unfold half_carry_check
  have h1 : (0x0F : Nat) = 15 := by norm_num
  rw [h1, and_fifteen, and_fifteen, and_fifteen,
    Nat.mod_mod_of_dvd _ (by norm_num : (16 : Nat) ∣ 256)]
  apply decide_eq_decide.mpr
  omega

/-- Witness for C3: `a = 0xFF`, `b = 0x01` (a genuine half-carry). -/
theorem half_carry_formula_equiv_witness :
    0xFF < 256 ∧ 0x01 < 256 ∧
    half_carry_check ((0xFF + 0x01) % 256) 0x01
      = decide (0xF < (0xFF &&& 0xF) + (0x01 &&& 0xF)) :=
  ⟨by decide, by decide,
    half_carry_formula_equiv 0xFF (by decide) 0x01 (by decide)⟩

/-- C4: decoding the one-byte slice `[0xC6]` (immediate Add, missing its
trailing immediate byte) reports `Invalid`, while decoding `[0x86]`
(register/indirect Add) succeeds with `Add(Addr)`; likewise for the
`Block3`/`Block2` decoders of `parsers.rs`. -/
theorem decode_truncated_immediate :
    Instruction.from_bytes [0xC6] = .err .Invalid ∧
    Instruction.from_bytes [0x86] = .ok (.AddInstr (Add.with_source .Addr)) ∧
    Block3.decode [0xC6] = .err .Invalid ∧
    Block2.decode [0x86] = .ok (.AddInstr (Add.with_source .Addr)) :=
  ⟨rfl, rfl, rfl, rfl⟩

set_option maxRecDepth 4096 in
/-- C5: `ArithSource::from_opcode` maps the low 3 bits
`0,1,2,3,4,5,6,7` of every opcode byte to exactly
`B, C, D, E, H, L, Indirect-via-HL, Accumulator` respectively, depending
only on those 3 bits (the `unreachable!()` arm is never taken). -/
theorem from_opcode_register_table :
    ∀ opcode < 256,
      ArithSource.from_opcode opcode =
        some (match opcode % 8 with
          | 0 => .Reg .B
          | 1 => .Reg .C
          | 2 => .Reg .D
          | 3 => .Reg .E
          | 4 => .Reg .H
          | 5 => .Reg .L
          | 6 => .Addr
          | _ => .Reg .Acc) := by
  decide

/-- Witness for C5: opcode `0x86` (low 3 bits `110`) decodes to the
HL-indirect source. -/
theorem from_opcode_register_table_witness :
    0x86 < 256 ∧
    ArithSource.from_opcode 0x86 =
      some (match 0x86 % 8 with
        | 0 => .Reg .B
        | 1 => .Reg .C
        | 2 => .Reg .D
        | 3 => .Reg .E
        | 4 => .Reg .H
        | 5 => .Reg .L
        | 6 => .Addr
        | _ => .Reg .Acc) :=
  ⟨by decide, from_opcode_register_table 0x86 (by decide)⟩

set_option maxRecDepth 4096 in
/-- C6: for every one of the 256 opcode bytes the classifier selects
exactly one of the five decode paths — the prefixed table for `0xCB`
(even though its top two bits equal 3), otherwise block 0/1/2/3 by the top
two bits — and the fallback `unreachable!()` branch is never taken. -/
theorem opcode_classifier_exhaustive :
    ∀ opcode < 256,
      InstructionDecoder.from_opcode opcode =
        some (if opcode = 0xCB then .PrefixedDecoder
          else if opcode < 0x40 then .Block0Decoder
          else if opcode < 0x80 then .Block1Decoder
          else if opcode < 0xC0 then .Block2Decoder
          else .Block3Decoder) := by
  decide

/-- Witness for C6: the prefix escape byte `0xCB` routes to the prefixed
decoder. -/
theorem opcode_classifier_exhaustive_witness :
    0xCB < 256 ∧
    InstructionDecoder.from_opcode 0xCB =
      some (if 0xCB = 0xCB then .PrefixedDecoder
        else if 0xCB < 0x40 then .Block0Decoder
        else if 0xCB < 0x80 then .Block1Decoder
        else if 0xCB < 0xC0 then .Block2Decoder
        else .Block3Decoder) :=
  ⟨by decide, opcode_classifier_exhaustive 0xCB (by decide)⟩

/-- C7: the flags register keeps its low nibble zero under every
operation — `set` stores only the top nibble of its argument, `clear`
zeroes all bits, the per-flag getters read the fixed bit positions
(Zero=7, Subtract=6, Half-Carry=5, Carry=4), and no sequence of flag
operations starting from a fresh register can leave bits 3-0 non-zero. -/
theorem flags_low_nibble_invariant :
    (∀ (f : Flags) (v : Nat), (f.set v).val = v &&& 0xF0) ∧
    (∀ f : Flags, f.clear.val = 0) ∧
    (∀ f : Flags,
      f.zero = f.val.testBit 7 ∧ f.subtract = f.val.testBit 6 ∧
      f.half_carry = f.val.testBit 5 ∧ f.carry = f.val.testBit 4) ∧
    (∀ ops : List FlagsOp, (applyFlagsOps ops Flags.new).val % 16 = 0) := by
  refine ⟨fun f v => rfl, fun f => rfl, fun f => ?_, fun ops => ?_⟩
  · exact ⟨flag_get_eq_testBit f 7, flag_get_eq_testBit f 6,
      flag_get_eq_testBit f 5, flag_get_eq_testBit f 4⟩
  · exact applyFlagsOps_lowNibble ops Flags.new (by decide)

/-- The 16-bit pair round-trip property at value `v` against register file
`regs`: writing a pair then reading the high/low bytes and the pair itself
recovers `v >> 8`, `v & 0xFF`, and `v`; and every pair read is
`(high << 8) | low` of the backing bytes. -/
def PairRoundTrip (v : Nat) (regs : RawRegisters) : Prop :=
  ((regs.set_bc v).b = v >>> 8 ∧ (regs.set_bc v).c = v &&& 0xFF ∧
    (regs.set_bc v).bc = v) ∧
  ((regs.set_de v).d = v >>> 8 ∧ (regs.set_de v).e = v &&& 0xFF ∧
    (regs.set_de v).de = v) ∧
  ((regs.set_hl v).h = v >>> 8 ∧ (regs.set_hl v).l = v &&& 0xFF ∧
    (regs.set_hl v).hl = v) ∧
  (regs.bc = (regs.b <<< 8) ||| regs.c ∧
    regs.de = (regs.d <<< 8) ||| regs.e ∧
    regs.hl = (regs.h <<< 8) ||| regs.l)

/-- C8: for every 16-bit `v` and every register pair, setting the pair to
`v` then reading the high and low 8-bit registers yields `v >> 8` and
`v & 0xFF`, reading the pair again yields `v`, and conversely every 16-bit
pair read equals `(high << 8) | low` of the two backing bytes. -/
theorem register_pair_roundtrip :
    ∀ v < 65536, ∀ regs : RawRegisters, PairRoundTrip v regs := by
  intro v hv regs
  have hmod : (v >>> 8) % 256 = v >>> 8 :=
    Nat.mod_eq_of_lt (shiftRight_byte_lt hv)
  have key : (((v >>> 8) % 256) <<< 8) ||| (v &&& 0xFF) = v := by
    rw [hmod]
    exact high_low_or v
  exact ⟨⟨hmod, rfl, key⟩, ⟨hmod, rfl, key⟩, ⟨hmod, rfl, key⟩,
    rfl, rfl, rfl⟩

/-- Witness for C8: `set_bc(0xCAFE)` gives `b = 0xCA`, `c = 0xFE`,
`bc() = 0xCAFE` on a fresh register file. -/
theorem register_pair_roundtrip_witness :
    0xCAFE < 65536 ∧ PairRoundTrip 0xCAFE RawRegisters.new :=
  ⟨by decide, register_pair_roundtrip 0xCAFE (by decide) RawRegisters.new⟩

/-- C9: executing `Add` with a register or immediate operand source leaves
the registers B, C, D, E, H, L and the stack pointer (both the register
file's and the CPU state's) unchanged, for every starting CPU state. -/
theorem add_frame_effect (mem : Nat → Nat) (state : CpuState)
    (src : ArithSource)
    (_hsrc : (∃ r, src = ArithSource.Reg r) ∨
      ∃ v, src = ArithSource.Immediate v) :
    ((Add.with_source src).execute mem state).regs.b = state.regs.b ∧
    ((Add.with_source src).execute mem state).regs.c = state.regs.c ∧
    ((Add.with_source src).execute mem state).regs.d = state.regs.d ∧
    ((Add.with_source src).execute mem state).regs.e = state.regs.e ∧
    ((Add.with_source src).execute mem state).regs.h = state.regs.h ∧
    ((Add.with_source src).execute mem state).regs.l = state.regs.l ∧
    ((Add.with_source src).execute mem state).regs.sp = state.regs.sp ∧
    ((Add.with_source src).execute mem state).sp = state.sp :=
  ⟨rfl, rfl, rfl, rfl, rfl, rfl, rfl, rfl⟩

/-- Witness for C9: `Add(Reg(B))` on the spec §8 scenario state. -/
theorem add_frame_effect_witness :
    (((∃ r, ArithSource.Reg Register8.B = ArithSource.Reg r) ∨
      ∃ v, ArithSource.Reg Register8.B = ArithSource.Immediate v)) ∧
    ((Add.with_source (ArithSource.Reg Register8.B)).execute mem0
        stateE1).regs.b = stateE1.regs.b :=
  ⟨Or.inl ⟨Register8.B, rfl⟩,
    (add_frame_effect mem0 stateE1 (ArithSource.Reg Register8.B)
      (Or.inl ⟨Register8.B, rfl⟩)).1⟩

/-- C10: decoding an empty byte slice reports `Invalid` rather than
panicking — `Instruction::from_bytes` on `[]`, `Block2::decode` on `[]`,
and `Block3::decode` on `[]` or on any single byte all yield
`Err(Invalid)`. -/
theorem decode_short_slice_invalid :
    Instruction.from_bytes [] = .err .Invalid ∧
    Block2.decode [] = .err .Invalid ∧
    Block3.decode [] = .err .Invalid ∧
    ∀ x : Nat, Block3.decode [x] = .err .Invalid :=
  ⟨rfl, rfl, rfl, fun _ => rfl⟩

end GB
